import Mathlib

/-
Verification of the todo-list task manager (src/main.rs).

The core data model and the operations of `TasksManager` are shallowly
embedded below.  Rust `Vec<Task>` becomes `List Task`; methods taking
`&mut self` become state-passing functions returning the new manager
together with the `Result<String, String>` value (embedded as
`Except String String`); methods taking `&self` return the manager
unchanged alongside their result, mirroring the borrow discipline.

Timestamps (`chrono::DateTime<Local>`) are modelled opaquely as their
serialized text: the program never inspects the structure of a
timestamp, it only stamps it at construction, renders it, and
round-trips it through serde (the chrono serde support serializes a
`DateTime<Local>` to an RFC3339 string and parses it back to an equal
value).  Accordingly `add_time : String` and its JSON form is `JVal.str`.

The filesystem that `store_to_file` / `read_from_file` touch is modelled
as a map from path strings to optional JSON documents.  OS-level I/O
failures (`File::create` / `File::open` errors) are not modelled: in the
embedding, creating a fresh file and opening an existing one always
succeed, and `serde_json::to_writer` on a `Vec<Task>` is total.  The
text of the serde deserialization error (`{err}` in the source) is
environment-dependent and abstracted to a fixed description; no claim
depends on its content.
-/

namespace TodoList

/-- Priority enumeration from the source (`enum Priority`). -/
inductive Priority where
  | Low
  | Medium
  | High
deriving DecidableEq, Repr

/-- `Priority::to_string`: canonical label of each variant. -/
def Priority.to_string : Priority → String
  | .Low => "Low"
  | .Medium => "Medium"
  | .High => "High"

/-- The `Task` struct: name, description, priority and creation timestamp
(`add_time`, modelled as its serialized RFC3339 text). -/
structure Task where
  name : String
  description : String
  priority : Priority
  add_time : String
deriving DecidableEq, Repr

/-- `Task::print_task` renders `name | priority | add_time` followed by the
description in quotes.  The chrono display formatting of the timestamp
("%d-%m-%Y %H:%M:%S") is abstracted to the opaque timestamp text itself,
since timestamps are modelled opaquely and no claim inspects the digits. -/
def Task.print_task (t : Task) : String :=
  t.name ++ " | " ++ t.priority.to_string ++ " | " ++ t.add_time
    ++ "\n\"" ++ t.description ++ "\"\n"

/-- The `TasksManager` struct: the owned ordered sequence of tasks. -/
structure TasksManager where
  tasks : List Task
deriving DecidableEq, Repr

/-- `TasksManager::new`: empty task vector. -/
def TasksManager.new : TasksManager := ⟨[]⟩

/-- `TasksManager::print_tasks`: renders every task in sequence order
(the sequence of lines printed, as a list of rendered strings). -/
def TasksManager.print_tasks (m : TasksManager) : List String :=
  m.tasks.map Task.print_task

/-- `TasksManager::add_task`: pushes the task at the end of the vector. -/
def TasksManager.add_task (m : TasksManager) (task : Task) : TasksManager :=
  ⟨m.tasks ++ [task]⟩

/-- Rust `Iterator::position`: index of the first element satisfying the
predicate, or `none`. -/
def position (p : α → Bool) : List α → Option Nat
  | [] => none
  | x :: xs => if p x then some 0 else (position p xs).map (· + 1)

/-- `TasksManager::find_task`: position of the first task whose name equals
the given name (Rust `String == &str` equality, exact and case-sensitive). -/
def TasksManager.find_task (m : TasksManager) (name : String) : Option Nat :=
  position (fun task => task.name == name) m.tasks

/-- `TasksManager::remove_task`: removes the first task with the given name
(`Vec::remove` at the found index), or fails when none matches. -/
def TasksManager.remove_task (m : TasksManager) (name : String) :
    TasksManager × Except String String :=
  match m.find_task name with
  | some index =>
      (⟨m.tasks.eraseIdx index⟩,
       Except.ok ("Task \"" ++ name ++ "\" removed successfully"))
  | none =>
      (m, Except.error ("Task with name \"" ++ name ++ "\" doesn\x27t exist"))

/-- `TasksManager::edit_task`: finds the first task with the given name and
overwrites its name, description and priority fields in place with those of
`updated_task`; `add_time` is not assigned.  The inner `get_mut` lookup is
modelled by the optional list indexing at the found index, with the `None`
branch producing the fetch-error message of the source. -/
def TasksManager.edit_task (m : TasksManager) (name : String) (updated_task : Task) :
    TasksManager × Except String String :=
  match m.find_task name with
  | some index =>
      match m.tasks[index]? with
      | none => (m, Except.error "Error fetching task")
      | some task =>
          (⟨m.tasks.set index
              { task with
                  name := updated_task.name,
                  description := updated_task.description,
                  priority := updated_task.priority }⟩,
           Except.ok ("Task \"" ++ name ++ "\" updated successfully"))
  | none =>
      (m, Except.error ("Task with name \"" ++ name ++ "\" doesn\x27t exist"))

/-- JSON documents, with the constructors task serialization uses. -/
inductive JVal where
  | str (s : String)
  | arr (items : List JVal)
  | obj (fields : List (String × JVal))

/-- Extracts a JSON string, as serde does when deserializing a string field. -/
def JVal.asStr : JVal → Option String
  | .str s => some s
  | _ => none

/-- Field lookup in a serialized JSON object (first occurrence of the key). -/
def lookupField (fields : List (String × JVal)) (key : String) : Option JVal :=
  (fields.find? (fun f => f.1 == key)).map (·.2)

/-- Serde serialization of `Priority` (derived `Serialize`): a unit enum
variant serializes to its variant name as a JSON string. -/
def Priority.serialize : Priority → JVal
  | .Low => .str "Low"
  | .Medium => .str "Medium"
  | .High => .str "High"

/-- Serde deserialization of `Priority` (derived `Deserialize`): exact,
case-sensitive match on the variant name; anything else is an error. -/
def Priority.deserialize : JVal → Option Priority
  | .str s =>
      if s == "Low" then some Priority.Low
      else if s == "Medium" then some Priority.Medium
      else if s == "High" then some Priority.High
      else none
  | _ => none

/-- Serde serialization of `Task` (derived `Serialize`): a JSON object with
the four fields in declaration order; the chrono timestamp serializes to its
RFC3339 string. -/
def Task.serialize (t : Task) : JVal :=
  .obj [("name", .str t.name), ("description", .str t.description),
        ("priority", t.priority.serialize), ("add_time", .str t.add_time)]

/-- Serde deserialization of `Task` (derived `Deserialize`): requires a JSON
object providing all four fields with well-typed contents. -/
def Task.deserialize : JVal → Option Task
  | .obj fields => do
      let n ← (lookupField fields "name").bind JVal.asStr
      let d ← (lookupField fields "description").bind JVal.asStr
      let p ← (lookupField fields "priority").bind Priority.deserialize
      let a ← (lookupField fields "add_time").bind JVal.asStr
      some { name := n, description := d, priority := p, add_time := a }
  | _ => none

/-- `serde_json::to_writer(&file, &self.tasks)`: a `Vec<Task>` serializes to
a JSON array of the serialized tasks, in order. -/
def serializeTasks (ts : List Task) : JVal :=
  .arr (ts.map Task.serialize)

/-- Serde sequence deserialization: each element must deserialize to a task,
in order; the first failure fails the whole read. -/
def deserializeTaskList : List JVal → Option (List Task)
  | [] => some []
  | x :: xs =>
      match Task.deserialize x with
      | some t => (deserializeTaskList xs).map (t :: ·)
      | none => none

/-- `serde_json::from_reader` into `Vec<Task>`: the document must be a JSON
array whose elements all deserialize to tasks. -/
def deserializeTasks : JVal → Option (List Task)
  | .arr items => deserializeTaskList items
  | _ => none

/-- The filesystem: a map from path strings to the JSON document stored at
that path (`none` when `Path::new(p).exists()` is false). -/
abbrev Filesystem := String → Option JVal

/-- `TasksManager::store_to_file` (takes `&self`, hence the manager comes
back unchanged).  When the path does not exist, the file is created and the
serialized task vector written; when it exists, the method fails with the
source's literal error string — note the source builds it with
a plain string literal (with `to_owned`) in which the brace-enclosed
`filename` placeholder is NOT interpolated, unlike the other messages,
which are built with the format macro. -/
def TasksManager.store_to_file (m : TasksManager) (fs : Filesystem) (filename : String) :
    TasksManager × Filesystem × Except String String :=
  match fs filename with
  | none =>
      (m, fun p => if p = filename then some (serializeTasks m.tasks) else fs p,
       Except.ok "Data stored successfully")
  | some _ =>
      (m, fs, Except.error "File \"\x7bfilename\x7d\" already exists")

/-- `TasksManager::read_from_file`: when the path exists, the file is parsed;
on success the parsed vector replaces `self.tasks`, while on a parse error
the method returns before the assignment (`return Err(...)` inside the
match arm), leaving `self.tasks` untouched.  Nonexistent paths fail with
the not-exist message.  The filesystem is not modified (read only). -/
def TasksManager.read_from_file (m : TasksManager) (fs : Filesystem) (filename : String) :
    TasksManager × Except String String :=
  match fs filename with
  | some content =>
      match deserializeTasks content with
      | some data => (⟨data⟩, Except.ok "Data read successfully")
      | none => (m, Except.error "Error reading file: invalid JSON data")
  | none =>
      (m, Except.error ("File \"" ++ filename ++ "\" doesn\x27t exist"))

/-- Unfolding lemma for `position` on a cons cell. -/
theorem position_cons (p : α → Bool) (x : α) (xs : List α) :
    position p (x :: xs) = if p x then some 0 else (position p xs).map (· + 1) := rfl

/-- `position` is `none` exactly when no element satisfies the predicate. -/
theorem position_none_iff (p : α → Bool) (l : List α) :
    position p l = none ↔ ∀ x ∈ l, p x = false := by
  induction l with
  | nil => simp [position]
  | cons a xs ih =>
      by_cases ha : p a
      · simp [position_cons, ha]
      · simp [position_cons, ha, Option.map_eq_none', ih]

/-- When `position` returns an index, that index lies within the list, the
element there satisfies the predicate, and no earlier element does. -/
theorem position_some_spec (p : α → Bool) (l : List α) (i : Nat)
    (h : position p l = some i) :
    (∃ x, l[i]? = some x ∧ p x = true) ∧
      ∀ j, j < i → ∀ x, l[j]? = some x → p x = false := by
  induction l generalizing i with
  | nil => simp [position] at h
  | cons a xs ih =>
      by_cases ha : p a
      · simp [position_cons, ha] at h
        subst h
        refine ⟨⟨a, by simp, ha⟩, ?_⟩
        intro j hj
        omega
      · simp [position_cons, ha, Option.map_eq_some'] at h
        obtain ⟨k, hk, rfl⟩ := h
        obtain ⟨⟨x, hx, hpx⟩, hfirst⟩ := ih k hk
        refine ⟨⟨x, by simpa using hx, hpx⟩, ?_⟩
        intro j hj y hy
        cases j with
        | zero =>
            simp at hy
            subst hy
            simpa using ha
        | succ j =>
            exact hfirst j (by omega) y (by simpa using hy)

/-- An element satisfying the predicate guarantees `position` finds some
index. -/
theorem position_isSome_of_mem (p : α → Bool) (l : List α) (x : α)
    (hx : x ∈ l) (hp : p x = true) : ∃ i, position p l = some i := by
  induction l with
  | nil => simp at hx
  | cons a xs ih =>
      by_cases ha : p a
      · exact ⟨0, by simp [position_cons, ha]⟩
      · rcases List.mem_cons.mp hx with rfl | hx'
        · exact absurd hp ha
        · obtain ⟨k, hk⟩ := ih hx'
          exact ⟨k + 1, by simp [position_cons, ha, hk]⟩

/-- Fold of repeated `add_task` calls appends the task list in order. -/
theorem foldl_add_task (m : TasksManager) (ts : List Task) :
    (ts.foldl TasksManager.add_task m).tasks = m.tasks ++ ts := by
  induction ts generalizing m with
  | nil => simp
  | cons t ts ih =>
      simp [List.foldl_cons, ih, TasksManager.add_task]

/-- Deserialization inverts serialization on a priority. -/
theorem priority_roundtrip (p : Priority) :
    Priority.deserialize p.serialize = some p := by
  cases p <;> rfl

/-- Deserialization inverts serialization on a task. -/
theorem task_roundtrip (t : Task) :
    Task.deserialize t.serialize = some t := by
  obtain ⟨n, d, p, a⟩ := t
  cases p <;> rfl

/-- Deserialization inverts serialization elementwise on a task list. -/
theorem taskList_roundtrip (ts : List Task) :
    deserializeTaskList (ts.map Task.serialize) = some ts := by
  induction ts with
  | nil => rfl
  | cons t ts ih => simp [deserializeTaskList, task_roundtrip, ih]

/-- Deserialization inverts serialization on a whole task vector. -/
theorem tasks_roundtrip (ts : List Task) :
    deserializeTasks (serializeTasks ts) = some ts := by
  simp [deserializeTasks, serializeTasks, taskList_roundtrip]

/-- Sample task fixture. -/
def t1 : Task :=
  { name := "Write report", description := "Q3 summary",
    priority := Priority.Medium, add_time := "2024-01-01T10:00:00+02:00" }

/-- Sample task fixture. -/
def t2 : Task :=
  { name := "Clean desk", description := "",
    priority := Priority.Low, add_time := "2024-01-01T11:00:00+02:00" }

/-- Sample task fixture with a name duplicating `t1`. -/
def t3 : Task :=
  { name := "Write report", description := "duplicate",
    priority := Priority.High, add_time := "2024-01-02T09:00:00+02:00" }

/-- Sample manager holding three tasks, with a duplicated name. -/
def tmSample : TasksManager := ⟨[t1, t2, t3]⟩

/-- Filesystem fixture where only "todo.json" exists. -/
def fsTodo : Filesystem :=
  fun p => if p = "todo.json" then some (JVal.str "occupied") else none

/-- Filesystem fixture where only "other.json" exists. -/
def fsOther : Filesystem :=
  fun p => if p = "other.json" then some (JVal.str "occupied") else none

/-- Filesystem fixture where only "data.json" exists, holding a document
that is not a JSON array of tasks. -/
def fsBad : Filesystem :=
  fun p => if p = "data.json" then some (JVal.str "garbage") else none

/-- Filesystem fixture with no files. -/
def fsEmpty : Filesystem := fun _ => none

/-- C5: `find_task` returns the index of the first task in the sequence
whose name equals the given name by exact case-sensitive string equality
(even when several tasks share the name), and returns `none` exactly when no
task in the sequence has that name. -/
theorem find_task_correct (m : TasksManager) (name : String) :
    (∀ i, m.find_task name = some i →
        (∃ t, m.tasks[i]? = some t ∧ t.name = name) ∧
          ∀ j, j < i → ∀ t, m.tasks[j]? = some t → t.name ≠ name) ∧
    (m.find_task name = none ↔ ∀ t ∈ m.tasks, t.name ≠ name) := by
  constructor
  · intro i hi
    obtain ⟨⟨t, ht, hp⟩, hfirst⟩ := position_some_spec _ _ _ hi
    refine ⟨⟨t, ht, by simpa using hp⟩, ?_⟩
    intro j hj t' ht'
    simpa using hfirst j hj t' ht'
  · rw [TasksManager.find_task, position_none_iff]
    constructor
    · intro h t ht
      simpa using h t ht
    · intro h t ht
      simpa using h t ht

/-- C5 witness: on the concrete manager with the duplicated name
"Write report" at positions 0 and 2, `find_task` returns position 0, whose
task has the searched name; and searching an absent name returns `none`. -/
theorem find_task_correct_witness :
    (∃ t, tmSample.tasks[0]? = some t ∧ t.name = "Write report") ∧
      tmSample.find_task "absent" = none := by
  constructor
  · exact ((find_task_correct tmSample "Write report").1 0 (by decide)).1
  · exact (find_task_correct tmSample "absent").2.mpr (by decide)

/-- C3: when some task has the given name, `remove_task` removes exactly the
first such task (the one at the index `find_task` returns) and the length
decreases by exactly one; when no task has the name, the manager is
unchanged and the call yields an error. -/
theorem remove_task_correct (m : TasksManager) (name : String) :
    ((∃ t ∈ m.tasks, t.name = name) →
        ∃ i, m.find_task name = some i ∧
          (m.remove_task name).1.tasks = m.tasks.eraseIdx i ∧
          (m.remove_task name).1.tasks.length + 1 = m.tasks.length ∧
          ∃ msg, (m.remove_task name).2 = Except.ok msg) ∧
    ((∀ t ∈ m.tasks, t.name ≠ name) →
        (m.remove_task name).1 = m ∧
          ∃ e, (m.remove_task name).2 = Except.error e) := by
  constructor
  · rintro ⟨t, ht, hname⟩
    obtain ⟨i, hi⟩ :=
      position_isSome_of_mem (fun task => task.name == name) m.tasks t ht
        (by simpa using hname)
    obtain ⟨⟨x, hx, _⟩, _⟩ := position_some_spec _ _ _ hi
    obtain ⟨hlen, -⟩ := List.getElem?_eq_some_iff.mp hx
    refine ⟨i, hi, ?_, ?_, ?_⟩
    · simp [TasksManager.remove_task, TasksManager.find_task, hi]
    · have hls := List.length_eraseIdx_add_one hlen
      simpa [TasksManager.remove_task, TasksManager.find_task, hi] using hls
    · exact ⟨"Task \"" ++ name ++ "\" removed successfully",
        by simp [TasksManager.remove_task, TasksManager.find_task, hi]⟩
  · intro h
    have hnone : m.find_task name = none := by
      rw [TasksManager.find_task, position_none_iff]
      intro t ht
      simpa using h t ht
    constructor
    · simp [TasksManager.remove_task, hnone]
    · exact ⟨"Task with name \"" ++ name ++ "\" doesn\x27t exist",
        by simp [TasksManager.remove_task, hnone]⟩

/-- C3 witness: removing the duplicated name "Write report" from the sample
manager shrinks the length from 3 to 2 by erasing index 0, and removing an
absent name leaves the sample manager unchanged with an error. -/
theorem remove_task_correct_witness :
    (∃ i, tmSample.find_task "Write report" = some i ∧
        (tmSample.remove_task "Write report").1.tasks = tmSample.tasks.eraseIdx i ∧
        (tmSample.remove_task "Write report").1.tasks.length + 1
          = tmSample.tasks.length ∧
        ∃ msg, (tmSample.remove_task "Write report").2 = Except.ok msg) ∧
      ((tmSample.remove_task "absent").1 = tmSample ∧
        ∃ e, (tmSample.remove_task "absent").2 = Except.error e) := by
  constructor
  · exact (remove_task_correct tmSample "Write report").1
      ⟨t1, by simp [tmSample], by decide⟩
  · exact (remove_task_correct tmSample "absent").2 (by decide)

/-- C4: when some task has the given name, `edit_task` overwrites the name,
description and priority of the first matching task with those of the
replacement while keeping the creation timestamp the matched task had before
the call; when no task has the name, the manager is unchanged and the call
yields an error. -/
theorem edit_task_correct (m : TasksManager) (name : String) (u : Task) :
    ((∃ t ∈ m.tasks, t.name = name) →
        ∃ i old, m.find_task name = some i ∧ m.tasks[i]? = some old ∧
          (m.edit_task name u).1.tasks =
            m.tasks.set i
              { name := u.name, description := u.description,
                priority := u.priority, add_time := old.add_time } ∧
          ∃ msg, (m.edit_task name u).2 = Except.ok msg) ∧
    ((∀ t ∈ m.tasks, t.name ≠ name) →
        (m.edit_task name u).1 = m ∧
          ∃ e, (m.edit_task name u).2 = Except.error e) := by
  constructor
  · rintro ⟨t, ht, hname⟩
    obtain ⟨i, hi⟩ :=
      position_isSome_of_mem (fun task => task.name == name) m.tasks t ht
        (by simpa using hname)
    obtain ⟨⟨old, hold, _⟩, _⟩ := position_some_spec _ _ _ hi
    refine ⟨i, old, hi, hold, ?_, ?_⟩
    · simp [TasksManager.edit_task, TasksManager.find_task, hi, hold]
    · exact ⟨"Task \"" ++ name ++ "\" updated successfully",
        by simp [TasksManager.edit_task, TasksManager.find_task, hi, hold]⟩
  · intro h
    have hnone : m.find_task name = none := by
      rw [TasksManager.find_task, position_none_iff]
      intro t ht
      simpa using h t ht
    constructor
    · simp [TasksManager.edit_task, hnone]
    · exact ⟨"Task with name \"" ++ name ++ "\" doesn\x27t exist",
        by simp [TasksManager.edit_task, hnone]⟩

/-- C4 witness: editing "Clean desk" in the sample manager rewrites name,
description and priority from the replacement but keeps the old timestamp,
and editing an absent name leaves the manager unchanged with an error. -/
theorem edit_task_correct_witness :
    (∃ i old, tmSample.find_task "Clean desk" = some i ∧
        tmSample.tasks[i]? = some old ∧
        (tmSample.edit_task "Clean desk" t3).1.tasks =
          tmSample.tasks.set i
            { name := t3.name, description := t3.description,
              priority := t3.priority, add_time := old.add_time } ∧
        ∃ msg, (tmSample.edit_task "Clean desk" t3).2 = Except.ok msg) ∧
      ((tmSample.edit_task "absent" t3).1 = tmSample ∧
        ∃ e, (tmSample.edit_task "absent" t3).2 = Except.error e) := by
  constructor
  · exact (edit_task_correct tmSample "Clean desk" t3).1
      ⟨t2, by simp [tmSample], by decide⟩
  · exact (edit_task_correct tmSample "absent" t3).2 (by decide)

/-- C9: whenever the initial `find_task` inside `edit_task` returns an
index, that index is a valid position of the task sequence (the lookup at it
yields a task), so the edit succeeds and the inner "Error fetching task"
branch is never taken. -/
theorem edit_task_fetch_branch_unreachable (m : TasksManager) (name : String)
    (u : Task) (i : Nat) (h : m.find_task name = some i) :
    (∃ t, m.tasks[i]? = some t) ∧
      ∃ msg, (m.edit_task name u).2 = Except.ok msg := by
  obtain ⟨⟨t, ht, _⟩, _⟩ := position_some_spec _ _ _ h
  have hp : position (fun task => task.name == name) m.tasks = some i := h
  exact ⟨⟨t, ht⟩, "Task \"" ++ name ++ "\" updated successfully",
    by simp [TasksManager.edit_task, TasksManager.find_task, hp, ht]⟩

/-- C9 witness: on the sample manager, `find_task "Clean desk"` returns an
index that is valid, and the edit at it succeeds. -/
theorem edit_task_fetch_branch_unreachable_witness :
    (∃ t, tmSample.tasks[1]? = some t) ∧
      ∃ msg, (tmSample.edit_task "Clean desk" t1).2 = Except.ok msg :=
  edit_task_fetch_branch_unreachable tmSample "Clean desk" t1 1 (by decide)

/-- C6: every `add_task` appends at the end (and, returning unit in the
source, always succeeds), and after any sequence of `add_task` calls from an
empty manager the stored sequence — and hence the `print_tasks` rendering —
is exactly the insertion order. -/
theorem add_task_list_order (ts : List Task) :
    (∀ (m : TasksManager) (t : Task), (m.add_task t).tasks = m.tasks ++ [t]) ∧
    (ts.foldl TasksManager.add_task TasksManager.new).tasks = ts ∧
    (ts.foldl TasksManager.add_task TasksManager.new).print_tasks
      = ts.map Task.print_task := by
  refine ⟨fun m t => rfl, ?_, ?_⟩
  · simpa [TasksManager.new] using foldl_add_task TasksManager.new ts
  · rw [TasksManager.print_tasks]
    rw [show (ts.foldl TasksManager.add_task TasksManager.new).tasks = ts from
      by simpa [TasksManager.new] using foldl_add_task TasksManager.new ts]

/-- C10: `store_to_file` takes the manager by shared reference and returns
it unchanged on every path (success or failure): the in-memory task
sequence is never mutated by a save. -/
theorem store_to_file_preserves_tasks (m : TasksManager) (fs : Filesystem)
    (filename : String) :
    (m.store_to_file fs filename).1 = m := by
  unfold TasksManager.store_to_file
  cases fs filename <;> rfl

/-- C2: saving to a path that already exists fails with an error and leaves
the whole filesystem — in particular the existing file content — unchanged:
`store_to_file` never overwrites an existing file. -/
theorem store_to_file_existing_no_write (m : TasksManager) (fs : Filesystem)
    (filename : String) (c : JVal) (h : fs filename = some c) :
    (m.store_to_file fs filename).2.1 = fs ∧
      (m.store_to_file fs filename).2.1 filename = some c ∧
      ∃ e, (m.store_to_file fs filename).2.2 = Except.error e := by
  refine ⟨?_, ?_, "File \"\x7bfilename\x7d\" already exists", ?_⟩ <;>
    simp [TasksManager.store_to_file, h]

/-- C2 witness: saving over the existing "todo.json" fails and the file
keeps its bytes. -/
theorem store_to_file_existing_no_write_witness :
    (TasksManager.new.store_to_file fsTodo "todo.json").2.1 = fsTodo ∧
      (TasksManager.new.store_to_file fsTodo "todo.json").2.1 "todo.json"
        = some (JVal.str "occupied") ∧
      ∃ e, (TasksManager.new.store_to_file fsTodo "todo.json").2.2
        = Except.error e :=
  store_to_file_existing_no_write TasksManager.new fsTodo "todo.json"
    (JVal.str "occupied") rfl

/-- C1: loading from a path whose stored document does not deserialize to a
task list fails with an error and leaves the in-memory task sequence exactly
as it was: the assignment in the source happens only after a successful
parse, so there is no partial replacement. -/
theorem read_from_file_malformed_preserves_tasks (m : TasksManager)
    (fs : Filesystem) (filename : String) (c : JVal)
    (hc : fs filename = some c) (hbad : deserializeTasks c = none) :
    (m.read_from_file fs filename).1 = m ∧
      ∃ e, (m.read_from_file fs filename).2 = Except.error e := by
  refine ⟨?_, "Error reading file: invalid JSON data", ?_⟩ <;>
    simp [TasksManager.read_from_file, hc, hbad]

/-- C1 witness: loading the malformed "data.json" into the three-task sample
manager fails and keeps all three tasks. -/
theorem read_from_file_malformed_preserves_tasks_witness :
    (tmSample.read_from_file fsBad "data.json").1 = tmSample ∧
      ∃ e, (tmSample.read_from_file fsBad "data.json").2 = Except.error e :=
  read_from_file_malformed_preserves_tasks tmSample fsBad "data.json"
    (JVal.str "garbage") rfl rfl

/-- C7: saving any manager to a fresh path and loading that file into a
fresh manager reproduces the task sequence exactly — same list, hence same
length and, position by position, equal name, description, priority and
creation timestamp. -/
theorem save_load_roundtrip (m : TasksManager) (fs : Filesystem)
    (filename : String) (h : fs filename = none) :
    (TasksManager.new.read_from_file (m.store_to_file fs filename).2.1
        filename).1.tasks = m.tasks ∧
      ∃ msg, (TasksManager.new.read_from_file (m.store_to_file fs filename).2.1
        filename).2 = Except.ok msg := by
  have hstore : (m.store_to_file fs filename).2.1 filename
      = some (serializeTasks m.tasks) := by
    simp [TasksManager.store_to_file, h]
  refine ⟨?_, "Data read successfully", ?_⟩ <;>
    simp [TasksManager.read_from_file, hstore, tasks_roundtrip]

/-- C7 witness: the three-task sample manager round-trips through a save to
the fresh path "out.json" on the empty filesystem. -/
theorem save_load_roundtrip_witness :
    (TasksManager.new.read_from_file
        (tmSample.store_to_file fsEmpty "out.json").2.1 "out.json").1.tasks
      = tmSample.tasks ∧
      ∃ msg, (TasksManager.new.read_from_file
        (tmSample.store_to_file fsEmpty "out.json").2.1 "out.json").2
        = Except.ok msg :=
  save_load_roundtrip tmSample fsEmpty "out.json" rfl

/-- C8 evidence: the error returned by a save to an existing path is the
constant literal of the source, with the brace-enclosed placeholder left
verbatim; it is the same string for two different paths and the actual path
string "todo.json" does not occur in it. -/
theorem store_to_file_error_message_constant :
    (TasksManager.new.store_to_file fsTodo "todo.json").2.2 =
        Except.error "File \"\x7bfilename\x7d\" already exists" ∧
      (TasksManager.new.store_to_file fsTodo "todo.json").2.2 =
        (TasksManager.new.store_to_file fsOther "other.json").2.2 ∧
      ¬ List.IsInfix "todo.json".data
          "File \"\x7bfilename\x7d\" already exists".data := by
  refine ⟨rfl, rfl, by decide⟩

end TodoList
